import Mathlib

/-!
Verification development for the NFT contract-output parser
(`nft-viewer/src/app/common/parser.ts`).

The TypeScript source is shallowly embedded below: JavaScript strings are
modelled as Lean `String` (sequences of Unicode scalar values), JavaScript
exceptions as `Except JsError`, and the `js-base64` library as an explicit
base64 codec over the UTF-8 bytes of a string.  The data-URL sub-parser
(`./data-url-parser`) is not part of the provided sources and is modelled
from its specified contract.
-/

set_option linter.unusedVariables false

namespace NftParser

/-! ## JavaScript string primitives -/

/-- ASCII lower-casing of one character, as `toLocaleLowerCase` acts on the
ASCII range (the only range the parser compares against). -/
def jsCharLower (c : Char) : Char :=
  if 65 ≤ c.toNat ∧ c.toNat ≤ 90 then Char.ofNat (c.toNat + 32) else c

/-- `String.prototype.toLocaleLowerCase`, restricted to ASCII case mapping. -/
def jsToLower (s : String) : String := ⟨s.data.map jsCharLower⟩

/-- `String.prototype.startsWith`. -/
def jsStartsWith (s p : String) : Bool := p.data.isPrefixOf s.data

/-- `String.prototype.endsWith`. -/
def jsEndsWith (s p : String) : Bool := p.data.reverse.isPrefixOf s.data.reverse

/-- `String.prototype.substring(a, b)`: clamps both indices to the string
length and swaps them when `a > b`. -/
def jsSubstring (s : String) (a b : Nat) : String :=
  let n := s.data.length
  let a1 := min a n
  let b1 := min b n
  ⟨(s.data.drop (min a1 b1)).take (max a1 b1 - min a1 b1)⟩

/-- `String.prototype.substring(a)` (one-argument form: up to the end). -/
def jsSubstringFrom (s : String) (a : Nat) : String := ⟨s.data.drop a⟩

/-- Auxiliary scan for `String.prototype.indexOf` over character lists. -/
def subIndexAux (p : List Char) : List Char → Nat → Option Nat
  | [], i => if p.isPrefixOf ([] : List Char) then some i else none
  | c :: t, i => if p.isPrefixOf (c :: t) then some i else subIndexAux p t (i + 1)

/-- `String.prototype.indexOf` (`none` models the `-1` result). -/
def jsIndexOf (s p : String) : Option Nat := subIndexAux p.data s.data 0

/-- Auxiliary scan for `String.prototype.lastIndexOf` over character lists. -/
def lastSubIndexAux (p : List Char) : List Char → Nat → Option Nat
  | [], i => if p.isPrefixOf ([] : List Char) then some i else none
  | c :: t, i =>
    match lastSubIndexAux p t (i + 1) with
    | some j => some j
    | none => if p.isPrefixOf (c :: t) then some i else none

/-- `String.prototype.lastIndexOf` (`none` models the `-1` result). -/
def jsLastIndexOf (s p : String) : Option Nat := lastSubIndexAux p.data s.data 0

/-- The whitespace characters stripped by `String.prototype.trim` that can
occur in the parser's inputs. -/
def jsIsWs (c : Char) : Bool := c == ' ' || c == '\t' || c == '\n' || c == '\r'

/-- `String.prototype.trim`. -/
def jsTrimStr (s : String) : String :=
  ⟨((s.data.dropWhile jsIsWs).reverse.dropWhile jsIsWs).reverse⟩

/-- Decimal digit test. -/
def isDecDigit (c : Char) : Bool := 48 ≤ c.toNat && c.toNat ≤ 57

/-- Hexadecimal digit test. -/
def isHexDigit (c : Char) : Bool :=
  isDecDigit c || (97 ≤ c.toNat && c.toNat ≤ 102) || (65 ≤ c.toNat && c.toNat ≤ 70)

/-- Numeric value of a decimal digit. -/
def decDigitVal (c : Char) : Nat := c.toNat - 48

/-- Numeric value of a hexadecimal digit. -/
def hexDigitVal (c : Char) : Nat :=
  if isDecDigit c then c.toNat - 48
  else if 97 ≤ c.toNat then c.toNat - 87
  else c.toNat - 55

/-- Accumulate a digit string into a natural number in the given base. -/
def digitsToNat (base : Nat) (f : Char → Nat) : List Char → Nat → Nat
  | [], acc => acc
  | c :: t, acc => digitsToNat base f t (acc * base + f c)

/-- JavaScript `parseInt(s)` (radix argument omitted, as in the source):
skips leading whitespace, accepts one optional sign, switches to base 16
after a `0x`/`0X` prefix, and otherwise reads the longest leading run of
decimal digits; yields `none` (`NaN`) when no digit is found. -/
def jsParseInt (s : String) : Option Int :=
  let cs := s.data.dropWhile jsIsWs
  let sgncs : Int × List Char :=
    match cs with
    | '-' :: t => (-1, t)
    | '+' :: t => (1, t)
    | _ => (1, cs)
  let sgn := sgncs.1
  match sgncs.2 with
  | '0' :: x :: t =>
    if x == 'x' || x == 'X' then
      let ds := t.takeWhile isHexDigit
      if ds.isEmpty then none else some (sgn * (digitsToNat 16 hexDigitVal ds 0 : Nat))
    else
      let ds := ('0' :: x :: t).takeWhile isDecDigit
      if ds.isEmpty then none else some (sgn * (digitsToNat 10 decDigitVal ds 0 : Nat))
  | rest =>
    let ds := rest.takeWhile isDecDigit
    if ds.isEmpty then none else some (sgn * (digitsToNat 10 decDigitVal ds 0 : Nat))

/-! ## Base64 over UTF-8 bytes (the `js-base64` collaborator) -/

/-- The standard base64 alphabet. -/
def b64Alphabet : List Char :=
  "ABCDEFGHIJKLMNOPQRSTUVWXYZabcdefghijklmnopqrstuvwxyz0123456789+/".data

/-- Character for a sextet value. -/
def b64Char (n : Nat) : Char := b64Alphabet.getD n '='

/-- Linear scan giving the index of a character in the alphabet. -/
def b64ValAux : List Char → Nat → Char → Option Nat
  | [], _, _ => none
  | a :: rest, i, c => if a == c then some i else b64ValAux rest (i + 1) c

/-- Sextet value of a base64 character. -/
def b64Val (c : Char) : Option Nat := b64ValAux b64Alphabet 0 c

/-- Base64-encode a byte list (standard padding). -/
def encode64 : List Nat → List Char
  | [] => []
  | [a] => [b64Char (a / 4), b64Char (a % 4 * 16), '=', '=']
  | [a, b] => [b64Char (a / 4), b64Char (a % 4 * 16 + b / 16), b64Char (b % 16 * 4), '=']
  | a :: b :: c :: rest =>
    b64Char (a / 4) :: b64Char (a % 4 * 16 + b / 16) ::
      b64Char (b % 16 * 4 + c / 64) :: b64Char (c % 64) :: encode64 rest

/-- Base64-decode a character list (standard padding); `none` on malformed
input. -/
def decode64 : List Char → Option (List Nat)
  | [] => some []
  | c1 :: c2 :: c3 :: c4 :: rest =>
    match b64Val c1, b64Val c2 with
    | some v1, some v2 =>
      if c3 == '=' then
        if c4 == '=' && rest.isEmpty then some [v1 * 4 + v2 / 16] else none
      else
        match b64Val c3 with
        | some v3 =>
          if c4 == '=' then
            if rest.isEmpty then some [v1 * 4 + v2 / 16, v2 % 16 * 16 + v3 / 4] else none
          else
            match b64Val c4, decode64 rest with
            | some v4, some tl =>
              some ((v1 * 4 + v2 / 16) :: (v2 % 16 * 16 + v3 / 4) :: (v3 % 4 * 64 + v4) :: tl)
            | _, _ => none
        | none => none
    | _, _ => none
  | _ => none

/-- UTF-8 encoding of one Unicode scalar value. -/
def encChar (n : Nat) : List Nat :=
  if n < 128 then [n]
  else if n < 2048 then [192 + n / 64, 128 + n % 64]
  else if n < 65536 then [224 + n / 4096, 128 + n / 64 % 64, 128 + n % 64]
  else [240 + n / 262144, 128 + n / 4096 % 64, 128 + n / 64 % 64, 128 + n % 64]

/-- UTF-8 encoding of a character list. -/
def utf8Encode : List Char → List Nat
  | [] => []
  | c :: cs => encChar c.toNat ++ utf8Encode cs

/-- UTF-8 decoding of a byte list, with fuel (one unit per decoded
character suffices since every character consumes at least one byte);
`none` on malformed input.  Continuation bytes are read through `headD 0`:
a missing byte reads as `0` and fails the continuation-range test, exactly
as a truncated sequence must. -/
def utf8DecodeAux : Nat → List Nat → Option (List Char)
  | 0, l => if l.isEmpty then some [] else none
  | _ + 1, [] => some []
  | fuel + 1, b :: rest =>
    if b < 128 then (utf8DecodeAux fuel rest).map (fun cs => Char.ofNat b :: cs)
    else if b < 192 then none
    else if b < 224 then
      if 128 ≤ rest.headD 0 && rest.headD 0 < 192 then
        (utf8DecodeAux fuel rest.tail).map
          (fun cs => Char.ofNat ((b - 192) * 64 + (rest.headD 0 - 128)) :: cs)
      else none
    else if b < 240 then
      if (128 ≤ rest.headD 0 && rest.headD 0 < 192) &&
         (128 ≤ rest.tail.headD 0 && rest.tail.headD 0 < 192) then
        (utf8DecodeAux fuel rest.tail.tail).map
          (fun cs => Char.ofNat ((b - 224) * 4096 + (rest.headD 0 - 128) * 64
            + (rest.tail.headD 0 - 128)) :: cs)
      else none
    else if b < 248 then
      if (128 ≤ rest.headD 0 && rest.headD 0 < 192) &&
         ((128 ≤ rest.tail.headD 0 && rest.tail.headD 0 < 192) &&
          (128 ≤ rest.tail.tail.headD 0 && rest.tail.tail.headD 0 < 192)) then
        (utf8DecodeAux fuel rest.tail.tail.tail).map
          (fun cs => Char.ofNat ((b - 240) * 262144 + (rest.headD 0 - 128) * 4096
            + (rest.tail.headD 0 - 128) * 64 + (rest.tail.tail.headD 0 - 128)) :: cs)
      else none
    else none

/-- UTF-8 decoding of a byte list; `none` on malformed input. -/
def utf8Decode (l : List Nat) : Option (List Char) := utf8DecodeAux l.length l

/-- `Base64.encode` of the `js-base64` library: base64 of the UTF-8 bytes. -/
def Base64.encode (s : String) : String := ⟨encode64 (utf8Encode s.data)⟩

/-- `Base64.decode` of the `js-base64` library (lenient: yields `""` on
input it cannot decode). -/
def Base64.decode (s : String) : String :=
  match decode64 s.data with
  | some bs =>
    match utf8Decode bs with
    | some cs => ⟨cs⟩
    | none => ""
  | none => ""

/-! ## JSON values and `JSON.parse` (the JavaScript builtin) -/

/-- A parsed JSON value.  Numbers keep their source text (the parser only
ever tests them for truthiness). -/
inductive Json where
  | null
  | bool (b : Bool)
  | num (raw : String)
  | str (s : String)
  | arr (elems : List Json)
  | obj (fields : List (String × Json))
  deriving Repr, Inhabited

/-- First-match association lookup on object fields. -/
def lookupField : List (String × Json) → String → Option Json
  | [], _ => none
  | (k', v) :: rest, k => if k' == k then some v else lookupField rest k

/-- JavaScript property read `j.k`: `undefined` (i.e. `none`) on anything
but an object with that key. -/
def Json.getField : Json → String → Option Json
  | .obj fs, k => lookupField fs k
  | _, _ => none

/-- JavaScript property write: update in place when the key exists,
append otherwise. -/
def insertField : List (String × Json) → String → Json → List (String × Json)
  | [], k, v => [(k, v)]
  | (k', v') :: rest, k, v =>
    if k' == k then (k', v) :: rest else (k', v') :: insertField rest k v

/-- JavaScript property assignment `j.k = v`. -/
def Json.setField : Json → String → Json → Json
  | .obj fs, k, v => .obj (insertField fs k v)
  | j, _, _ => j

/-- Whether a JSON number literal denotes zero (every mantissa digit `0`). -/
def numIsZero (raw : String) : Bool :=
  (raw.data.takeWhile (fun c => c != 'e' && c != 'E')).all
    (fun c => !isDecDigit c || c == '0')

/-- JavaScript truthiness of a JSON value. -/
def jsTruthy : Json → Bool
  | .null => false
  | .bool b => b
  | .num raw => !numIsZero raw
  | .str s => !s.data.isEmpty
  | .arr _ => true
  | .obj _ => true

/-- The whitespace accepted by the JSON grammar. -/
def jsonWs (c : Char) : Bool := c == ' ' || c == '\t' || c == '\n' || c == '\r'

/-- The `LEFT CURLY BRACKET` character. -/
def lbrace : Char := Char.ofNat 123

/-- The `RIGHT CURLY BRACKET` character. -/
def rbrace : Char := Char.ofNat 125

/-- Four hex digits of a `\u` escape. -/
def parseHex4 : List Char → Option (Nat × List Char)
  | h1 :: h2 :: h3 :: h4 :: rest =>
    if isHexDigit h1 && (isHexDigit h2 && (isHexDigit h3 && isHexDigit h4)) then
      some (((hexDigitVal h1 * 16 + hexDigitVal h2) * 16 + hexDigitVal h3) * 16
        + hexDigitVal h4, rest)
    else none
  | _ => none

/-- JSON string body after the opening quote, with escape sequences. -/
def parseJStrAux : Nat → List Char → List Char → Option (String × List Char)
  | 0, _, _ => none
  | fuel + 1, acc, cs =>
    match cs with
    | [] => none
    | '"' :: rest => some (⟨acc.reverse⟩, rest)
    | '\\' :: [] => none
    | '\\' :: e :: rest =>
      if e == '"' then parseJStrAux fuel ('"' :: acc) rest
      else if e == '\\' then parseJStrAux fuel ('\\' :: acc) rest
      else if e == '/' then parseJStrAux fuel ('/' :: acc) rest
      else if e == 'b' then parseJStrAux fuel (Char.ofNat 8 :: acc) rest
      else if e == 'f' then parseJStrAux fuel (Char.ofNat 12 :: acc) rest
      else if e == 'n' then parseJStrAux fuel ('\n' :: acc) rest
      else if e == 'r' then parseJStrAux fuel ('\r' :: acc) rest
      else if e == 't' then parseJStrAux fuel ('\t' :: acc) rest
      else if e == 'u' then
        match parseHex4 rest with
        | some (v, rest2) => parseJStrAux fuel (Char.ofNat v :: acc) rest2
        | none => none
      else none
    | c :: rest => if 32 ≤ c.toNat then parseJStrAux fuel (c :: acc) rest else none

/-- Split a leading run of decimal digits. -/
def takeDigits (cs : List Char) : List Char × List Char :=
  (cs.takeWhile isDecDigit, cs.dropWhile isDecDigit)

/-- Integer part of a JSON number (a single `0`, or a nonzero-led digit
run). -/
def parseJIntPart : List Char → Option (List Char × List Char)
  | '0' :: rest => some (['0'], rest)
  | c :: rest =>
    if isDecDigit c then
      let dr := takeDigits rest
      some (c :: dr.1, dr.2)
    else none
  | [] => none

/-- Optional fraction part of a JSON number. -/
def parseJFracPart : List Char → Option (List Char × List Char)
  | '.' :: rest =>
    let dr := takeDigits rest
    if dr.1.isEmpty then none else some ('.' :: dr.1, dr.2)
  | cs => some ([], cs)

/-- Optional exponent part of a JSON number. -/
def parseJExpPart : List Char → Option (List Char × List Char)
  | c :: rest =>
    if c == 'e' || c == 'E' then
      let sgr : List Char × List Char :=
        match rest with
        | '+' :: t => (['+'], t)
        | '-' :: t => (['-'], t)
        | _ => ([], rest)
      let dr := takeDigits sgr.2
      if dr.1.isEmpty then none else some (c :: (sgr.1 ++ dr.1), dr.2)
    else some ([], c :: rest)
  | [] => some ([], [])

/-- A JSON number literal, kept as raw text. -/
def parseJNum (cs : List Char) : Option (String × List Char) :=
  let negcs : List Char × List Char :=
    match cs with
    | '-' :: t => (['-'], t)
    | _ => ([], cs)
  match parseJIntPart negcs.2 with
  | none => none
  | some (ip, r1) =>
    match parseJFracPart r1 with
    | none => none
    | some (fp, r2) =>
      match parseJExpPart r2 with
      | none => none
      | some (ep, r3) => some (⟨negcs.1 ++ ip ++ fp ++ ep⟩, r3)

mutual

/-- One JSON value (fuelled recursive-descent, mirroring `JSON.parse`). -/
def parseJVal : Nat → List Char → Option (Json × List Char)
  | 0, _ => none
  | fuel + 1, cs0 =>
    let cs := cs0.dropWhile jsonWs
    match cs with
    | [] => none
    | c :: rest =>
      if c == lbrace then
        let rest1 := rest.dropWhile jsonWs
        match rest1 with
        | r :: rest2 =>
          if r == rbrace then some (.obj [], rest2)
          else parseJFields fuel [] (r :: rest2)
        | [] => none
      else if c == '[' then
        let rest1 := rest.dropWhile jsonWs
        match rest1 with
        | ']' :: rest2 => some (.arr [], rest2)
        | _ => parseJElems fuel [] rest1
      else if c == '"' then
        match parseJStrAux (rest.length + 1) [] rest with
        | some (s, r) => some (.str s, r)
        | none => none
      else
        match cs with
        | 't' :: 'r' :: 'u' :: 'e' :: r => some (.bool true, r)
        | 'f' :: 'a' :: 'l' :: 's' :: 'e' :: r => some (.bool false, r)
        | 'n' :: 'u' :: 'l' :: 'l' :: r => some (.null, r)
        | _ =>
          match parseJNum cs with
          | some (raw, r) => some (.num raw, r)
          | none => none

/-- Members of a JSON object after the opening brace (at least one). -/
def parseJFields : Nat → List (String × Json) → List Char → Option (Json × List Char)
  | 0, _, _ => none
  | fuel + 1, acc, cs0 =>
    let cs := cs0.dropWhile jsonWs
    match cs with
    | '"' :: rest =>
      match parseJStrAux (rest.length + 1) [] rest with
      | some (k, r1) =>
        match r1.dropWhile jsonWs with
        | ':' :: r2 =>
          match parseJVal fuel r2 with
          | some (v, r3) =>
            match r3.dropWhile jsonWs with
            | c :: r4 =>
              if c == ',' then parseJFields fuel (insertField acc k v) r4
              else if c == rbrace then some (.obj (insertField acc k v), r4)
              else none
            | [] => none
          | none => none
        | _ => none
      | none => none
    | _ => none

/-- Elements of a JSON array after the opening bracket (at least one). -/
def parseJElems : Nat → List Json → List Char → Option (Json × List Char)
  | 0, _, _ => none
  | fuel + 1, acc, cs =>
    match parseJVal fuel cs with
    | some (v, r1) =>
      match r1.dropWhile jsonWs with
      | ',' :: r2 => parseJElems fuel (acc ++ [v]) r2
      | ']' :: r2 => some (.arr (acc ++ [v]), r2)
      | _ => none
    | none => none

end

/-- `JSON.parse`: one value, then only whitespace may remain; `none`
models a thrown `SyntaxError`. -/
def parseJsonString (s : String) : Option Json :=
  match parseJVal (s.data.length + 1) s.data with
  | some (j, rest) => if (rest.dropWhile jsonWs).isEmpty then some j else none
  | none => none

/-! ## The parser's data model (`parser.ts` lines 4-23) -/

/-- `enum ContentType`. -/
inductive ContentType where
  | SVG
  | JPG
  | PNG
  | HTML
  | Link
  | Unknown
  deriving DecidableEq, Repr

/-- `type Content`. -/
structure Content where
  label : Option String
  content : String
  contentType : ContentType
  deriving DecidableEq, Repr

/-- `type ParsedOutput` (`json` is `none` when the source leaves it
`null`). -/
structure ParsedOutput where
  gas : Int
  content : List Content
  json : Option Json
  deriving Repr

/-- The failure taxonomy of the pipeline; each constructor carries the
diagnostic data the thrown `Error` message embeds. -/
inductive JsError where
  | invalidGasFormat (gasString : String) (output : String)
  | invalidJson (payload : String)
  | noRenderableAttribute (json : Json)
  | unsupportedFormat (label : Option String) (output : String)
  | typeError
  deriving Repr

/-! ## The data-URL sub-parser (external collaborator) -/

/-- The record returned by the data-URL sub-parser. -/
structure MimeContent where
  mediaType : String
  data : String
  deriving DecidableEq, Repr

/-- Split a character list at the first comma. -/
def splitAtComma : List Char → Option (List Char × List Char)
  | [] => none
  | c :: rest =>
    if c == ',' then some ([], rest)
    else
      match splitAtComma rest with
      | some (h, t) => some (c :: h, t)
      | none => none

/-- Split a character list at every semicolon. -/
def splitSemi : List Char → List (List Char)
  | [] => [[]]
  | c :: rest =>
    if c == ';' then [] :: splitSemi rest
    else
      match splitSemi rest with
      | [] => [[c]]
      | h :: t => (c :: h) :: t

/-- Modelled from the spec: the repository's data-URL sub-parser
(`./data-url-parser`, imported by `parser.ts` but absent from the provided
sources).  Per the specified contract it recognizes the
`data:[<mediaType>][;base64],<data>` shape, returns the declared media type
(defaulting to `text/plain` when omitted, with parameters such as `;utf8`
not part of the media type), decodes a `;base64` payload, and returns
`none` (never throws) on anything that is not a data URL. -/
def parseDataUrl (s : String) : Option MimeContent :=
  if jsStartsWith s "data:" then
    match splitAtComma (s.data.drop 5) with
    | none => none
    | some (header, payload) =>
      let parts := splitSemi header
      let mt := parts.headD []
      let mediaType : String := if mt.isEmpty then "text/plain" else ⟨mt⟩
      let isB64 := parts.tail.any (fun p => p == "base64".data)
      some ⟨mediaType, if isB64 then Base64.decode ⟨payload⟩ else ⟨payload⟩⟩
  else none

/-! ## `parser.ts` functions -/

/-- `getTextBetween` (lines 25-32). -/
def getTextBetween (text beginText endText : String) : String :=
  match jsIndexOf text beginText, jsLastIndexOf text endText with
  | some beginIndex, some endIndex =>
    jsSubstring text (beginIndex + beginText.data.length) endIndex
  | _, _ => ""

/-- `trim` (lines 42-45): truncate a long string for display. -/
def trim (content : String) (trimSize : Nat) : String :=
  if content.data.length < trimSize then content
  else jsSubstring content 0 trimSize ++ "... (" ++ toString content.data.length
    ++ " bytes total)"

/-- The substring after the last occurrence of a character (the whole
string when the character is absent), as
`s.substring(s.lastIndexOf(c) + 1)` computes it. -/
def afterLast (c : Char) (s : String) : String :=
  ⟨(s.data.reverse.takeWhile (fun x => x != c)).reverse⟩

/-- The subtype-sniffing prelude of `decodeOutput` (lines 122-140). -/
def sniffSubtype (output : String) : String :=
  let outputLowercase := jsToLower output
  match parseDataUrl output with
  | some mimeContent =>
    let st := afterLast '/' mimeContent.mediaType
    if jsEndsWith st "+xml" then jsSubstring st 0 (st.data.length - 4) else st
  | none =>
    if jsStartsWith outputLowercase "<svg" then "svg"
    else if jsStartsWith outputLowercase "<html" then "html"
    else afterLast '.' outputLowercase

/-- The subtype-to-`ContentType` mapping of `decodeOutput` (lines
142-152), including the `http` fallback to `Link`. -/
def classify (output : String) : ContentType :=
  let subtype := sniffSubtype output
  if subtype == "svg" then .SVG
  else if subtype == "png" then .PNG
  else if subtype == "jpg" || subtype == "jpeg" then .JPG
  else if subtype == "html" then .HTML
  else if jsStartsWith output "http" then .Link
  else .Unknown

/-- `decodeOutput` (lines 121-187). -/
def decodeOutput (output : String) (label : Option String) : Except JsError Content :=
  let outputLowercase := jsToLower output
  let mimeContent := parseDataUrl output
  let contentType := classify output
  if contentType = .Unknown then .error (.unsupportedFormat label output)
  else
    let content :=
      match mimeContent with
      | some _ => output
      | none =>
        if jsStartsWith outputLowercase "http" then output
        else if jsStartsWith outputLowercase "<svg" then
          "data:image/svg+xml;base64," ++ Base64.encode output
        else output
    let content :=
      if contentType = .HTML then
        if jsStartsWith output "data:text/html;base64," then
          Base64.decode (jsSubstringFrom output 22)
        else content
      else if contentType = .SVG then
        if jsStartsWith output "data:image/svg+xml;utf8," then
          "data:image/svg+xml;base64,"
            ++ Base64.encode ((mimeContent.map MimeContent.data).getD "")
        else content
      else content
    .ok ⟨label, content, contentType⟩

/-- One step of the JSON branch of `parseContractFunctionOutput` (lines
82-98): test one attribute for truthiness, decode it, and truncate its
value in the JSON object.  A truthy non-string value makes the original
code throw a `TypeError` inside `decodeOutput`. -/
def runAttr (trimSize : Nat) (attr : String) :
    List Content × Json → Except JsError (List Content × Json)
  | (cs, j) =>
    match Json.getField j attr with
    | none => .ok (cs, j)
    | some v =>
      if jsTruthy v then
        match v with
        | .str s =>
          match decodeOutput s (some attr) with
          | .ok c => .ok (cs ++ [c], j.setField attr (.str (trim s trimSize)))
          | .error e => .error e
        | _ => .error .typeError
      else .ok (cs, j)

/-- `parseContractFunctionOutput` (lines 65-119).  The source's default
arguments are `gas = 0` and `trimSize = 100`. -/
def parseContractFunctionOutput (output : String) (gas : Int) (trimSize : Nat) :
    Except JsError ParsedOutput :=
  let mimeContent := parseDataUrl output
  let jsonParsed : Except JsError (Option Json) :=
    match mimeContent with
    | some mc =>
      if mc.mediaType == "application/json" then
        match parseJsonString mc.data with
        | some j => .ok (some j)
        | none => .error (.invalidJson mc.data)
      else .ok none
    | none => .ok none
  match jsonParsed with
  | .error e => .error e
  | .ok jsonVal =>
    match jsonVal with
    | some j =>
      if jsTruthy j then
        match runAttr trimSize "image" ([], j) with
        | .error e => .error e
        | .ok st1 =>
          match runAttr trimSize "image_data" st1 with
          | .error e => .error e
          | .ok st2 =>
            match runAttr trimSize "animation_url" st2 with
            | .error e => .error e
            | .ok (cs, j3) =>
              if cs.isEmpty then .error (.noRenderableAttribute j3)
              else .ok ⟨gas, cs, some j3⟩
      else
        match decodeOutput output none with
        | .ok c => .ok ⟨gas, [⟨none, c.content, c.contentType⟩], some j⟩
        | .error e => .error e
    | none =>
      match decodeOutput output none with
      | .ok c => .ok ⟨gas, [⟨none, c.content, c.contentType⟩], none⟩
      | .error e => .error e

/-- `parseTestOutput` (lines 50-60). -/
def parseTestOutput (output : String) : Except JsError ParsedOutput :=
  let gasString := getTextBetween output "<NFT_GAS>" "</NFT_GAS>"
  match jsParseInt gasString with
  | none => .error (.invalidGasFormat gasString output)
  | some gas =>
    parseContractFunctionOutput
      (jsTrimStr (getTextBetween output "<NFT_OUTPUT>" "</NFT_OUTPUT>")) gas 100

/-! ## Infrastructure lemmas -/

theorem strEta (s : String) : String.mk s.data = s := by
  cases s
  rfl

theorem charToNat_lt (c : Char) : c.toNat < 1114112 := by
  have h := c.valid
  simp [isValidChar, UInt32.isValidChar] at h
  show c.val.toNat < 1114112
  rcases h with h | ⟨h1, h2⟩ <;> omega

theorem prefixOf_append_self (p t : List Char) : p.isPrefixOf (p ++ t) = true := by
  rw [List.isPrefixOf_iff_prefix]
  exact List.prefix_append p t

theorem prefixOf_append_of_take_eq (p l1 t : List Char) (h : l1.take p.length = p) :
    p.isPrefixOf (l1 ++ t) = true := by
  rw [List.isPrefixOf_iff_prefix, List.prefix_iff_eq_take]
  rw [List.take_append_eq_append_take]
  have hle : p.length ≤ l1.length := by
    have := congrArg List.length h
    simp at this
    omega
  rw [h, Nat.sub_eq_zero_of_le hle]
  simp

theorem prefixOf_append_of_take_ne (p l1 t : List Char) (hle : p.length ≤ l1.length)
    (h : l1.take p.length ≠ p) : p.isPrefixOf (l1 ++ t) = false := by
  by_contra hc
  have hc' : p.isPrefixOf (l1 ++ t) = true := by
    cases hx : p.isPrefixOf (l1 ++ t)
    · exact absurd hx hc
    · rfl
  rw [List.isPrefixOf_iff_prefix, List.prefix_iff_eq_take] at hc'
  rw [List.take_append_eq_append_take, Nat.sub_eq_zero_of_le hle] at hc'
  simp at hc'
  exact h hc'.symm

theorem eq_append_drop_of_prefixOf (p l : List Char) (h : p.isPrefixOf l = true) :
    l = p ++ l.drop p.length := by
  rw [List.isPrefixOf_iff_prefix, List.prefix_iff_eq_take] at h
  conv_lhs => rw [← List.take_append_drop p.length l, ← h]

/-! ## Base64 / UTF-8 round trip -/

theorem dataMk (l : List Char) : (String.mk l).data = l := rfl

theorem b64Val_b64Char : ∀ n, n < 64 → b64Val (b64Char n) = some n := by decide

theorem b64Char_ne_pad : ∀ n, n < 64 → (b64Char n == '=') = false := by decide

theorem decode64_encode64 :
    ∀ bs : List Nat, (∀ b ∈ bs, b < 256) → decode64 (encode64 bs) = some bs
  | [], _ => rfl
  | [a], h => by
    have ha : a < 256 := h a (by simp)
    have h1 : a / 4 < 64 := by omega
    have h2 : a % 4 * 16 < 64 := by omega
    simp only [encode64, decode64, b64Val_b64Char _ h1, b64Val_b64Char _ h2]
    simp only [beq_self_eq_true, if_true, List.isEmpty_nil, Bool.and_true, Option.some.injEq,
      List.cons.injEq, and_true]
    omega
  | [a, b], h => by
    have ha : a < 256 := h a (by simp)
    have hb : b < 256 := h b (by simp)
    have h1 : a / 4 < 64 := by omega
    have h2 : a % 4 * 16 + b / 16 < 64 := by omega
    have h3 : b % 16 * 4 < 64 := by omega
    simp only [encode64, decode64, b64Val_b64Char _ h1, b64Val_b64Char _ h2,
      b64Val_b64Char _ h3, b64Char_ne_pad _ h3]
    simp only [Bool.false_eq_true, if_false, beq_self_eq_true, if_true, List.isEmpty_nil,
      Option.some.injEq, List.cons.injEq, and_true]
    omega
  | [a, b, c], h => by
    have ha : a < 256 := h a (by simp)
    have hb : b < 256 := h b (by simp)
    have hc : c < 256 := h c (by simp)
    have h1 : a / 4 < 64 := by omega
    have h2 : a % 4 * 16 + b / 16 < 64 := by omega
    have h3 : b % 16 * 4 + c / 64 < 64 := by omega
    have h4 : c % 64 < 64 := by omega
    simp only [encode64, decode64, b64Val_b64Char _ h1, b64Val_b64Char _ h2,
      b64Val_b64Char _ h3, b64Val_b64Char _ h4, b64Char_ne_pad _ h3, b64Char_ne_pad _ h4]
    simp only [Bool.false_eq_true, if_false, Option.some.injEq, List.cons.injEq, and_true]
    omega
  | a :: b :: c :: d :: rest, h => by
    have ha : a < 256 := h a (by simp)
    have hb : b < 256 := h b (by simp)
    have hc : c < 256 := h c (by simp)
    have h1 : a / 4 < 64 := by omega
    have h2 : a % 4 * 16 + b / 16 < 64 := by omega
    have h3 : b % 16 * 4 + c / 64 < 64 := by omega
    have h4 : c % 64 < 64 := by omega
    have ih := decode64_encode64 (d :: rest) (fun x hx => h x (by simp [hx]))
    simp only [encode64, decode64, b64Val_b64Char _ h1, b64Val_b64Char _ h2,
      b64Val_b64Char _ h3, b64Val_b64Char _ h4, b64Char_ne_pad _ h3, b64Char_ne_pad _ h4]
    simp only [Bool.false_eq_true, if_false, ih, Option.some.injEq, List.cons.injEq,
      and_true, true_and]
    omega

theorem encChar_bytes_lt (n : Nat) (hn : n < 1114112) : ∀ b ∈ encChar n, b < 256 := by
  intro b hb
  unfold encChar at hb
  split at hb
  · simp at hb
    omega
  · split at hb
    · simp at hb
      rcases hb with h | h <;> omega
    · split at hb
      · simp at hb
        rcases hb with h | h | h <;> omega
      · simp at hb
        rcases hb with h | h | h | h <;> omega

theorem utf8Encode_bytes_lt : ∀ cs : List Char, ∀ b ∈ utf8Encode cs, b < 256
  | [], b, hb => by simp [utf8Encode] at hb
  | c :: cs, b, hb => by
    simp only [utf8Encode, List.mem_append] at hb
    rcases hb with h | h
    · exact encChar_bytes_lt c.toNat (charToNat_lt c) b h
    · exact utf8Encode_bytes_lt cs b h

theorem utf8DecodeAux_irrel : ∀ (f1 f2 : Nat) (l : List Nat), l.length ≤ f1 →
    l.length ≤ f2 → utf8DecodeAux f1 l = utf8DecodeAux f2 l
  | 0, f2, l, h1, h2 => by
    have hl : l = [] := List.length_eq_zero.mp (Nat.le_zero.mp h1)
    subst hl
    cases f2 <;> simp [utf8DecodeAux]
  | f1 + 1, f2, [], h1, h2 => by
    cases f2 <;> simp [utf8DecodeAux]
  | f1 + 1, 0, b :: rest, h1, h2 => by
    simp at h2
  | f1 + 1, f2 + 1, b :: rest, h1, h2 => by
    have hl1 : rest.length ≤ f1 := by
      simp at h1
      omega
    have hl2 : rest.length ≤ f2 := by
      simp at h2
      omega
    have ht : rest.tail.length = rest.length - 1 := List.length_tail rest
    have htt : rest.tail.tail.length = rest.tail.length - 1 := List.length_tail rest.tail
    have httt : rest.tail.tail.tail.length = rest.tail.tail.length - 1 :=
      List.length_tail rest.tail.tail
    simp only [utf8DecodeAux]
    rw [utf8DecodeAux_irrel f1 f2 rest hl1 hl2,
      utf8DecodeAux_irrel f1 f2 rest.tail (by omega) (by omega),
      utf8DecodeAux_irrel f1 f2 rest.tail.tail (by omega) (by omega),
      utf8DecodeAux_irrel f1 f2 rest.tail.tail.tail (by omega) (by omega)]

theorem utf8Decode_encChar (c : Char) (tl : List Nat) :
    utf8Decode (encChar c.toNat ++ tl) = (utf8Decode tl).map (fun cs => c :: cs) := by
  have hv : c.toNat < 1114112 := charToNat_lt c
  by_cases h1 : c.toNat < 128
  · have he : encChar c.toNat = [c.toNat] := by
      unfold encChar
      rw [if_pos h1]
    rw [he]
    show utf8DecodeAux (c.toNat :: tl).length (c.toNat :: tl) = _
    simp only [List.length_cons, utf8DecodeAux]
    rw [if_pos h1]
    simp only [Char.ofNat_toNat]
    rfl
  · by_cases h2 : c.toNat < 2048
    · have he : encChar c.toNat = [192 + c.toNat / 64, 128 + c.toNat % 64] := by
        unfold encChar
        rw [if_neg h1, if_pos h2]
      rw [he]
      have c1 : ¬ 192 + c.toNat / 64 < 128 := by omega
      have c2 : ¬ 192 + c.toNat / 64 < 192 := by omega
      have c3 : 192 + c.toNat / 64 < 224 := by omega
      have c4 : (128 ≤ 128 + c.toNat % 64 && 128 + c.toNat % 64 < 192) = true := by
        simp only [Bool.and_eq_true, decide_eq_true_eq]
        omega
      show utf8DecodeAux ((192 + c.toNat / 64) :: (128 + c.toNat % 64) :: tl).length
        ((192 + c.toNat / 64) :: (128 + c.toNat % 64) :: tl) = _
      simp only [List.length_cons, utf8DecodeAux, List.headD_cons, List.tail_cons]
      rw [if_neg c1, if_neg c2, if_pos c3, if_pos c4]
      rw [utf8DecodeAux_irrel (tl.length + 1) tl.length tl (by omega) (le_refl _)]
      have e : (192 + c.toNat / 64 - 192) * 64 + (128 + c.toNat % 64 - 128) = c.toNat := by
        omega
      simp only [e, Char.ofNat_toNat]
      rfl
    · by_cases h3 : c.toNat < 65536
      · have he : encChar c.toNat =
            [224 + c.toNat / 4096, 128 + c.toNat / 64 % 64, 128 + c.toNat % 64] := by
          unfold encChar
          rw [if_neg h1, if_neg h2, if_pos h3]
        rw [he]
        have c1 : ¬ 224 + c.toNat / 4096 < 128 := by omega
        have c2 : ¬ 224 + c.toNat / 4096 < 192 := by omega
        have c3 : ¬ 224 + c.toNat / 4096 < 224 := by omega
        have c4 : 224 + c.toNat / 4096 < 240 := by omega
        have c5 : ((128 ≤ 128 + c.toNat / 64 % 64 && 128 + c.toNat / 64 % 64 < 192) &&
            (128 ≤ 128 + c.toNat % 64 && 128 + c.toNat % 64 < 192)) = true := by
          simp only [Bool.and_eq_true, decide_eq_true_eq]
          omega
        show utf8DecodeAux ((224 + c.toNat / 4096) :: (128 + c.toNat / 64 % 64) ::
          (128 + c.toNat % 64) :: tl).length ((224 + c.toNat / 4096) ::
          (128 + c.toNat / 64 % 64) :: (128 + c.toNat % 64) :: tl) = _
        simp only [List.length_cons, utf8DecodeAux, List.headD_cons, List.tail_cons]
        rw [if_neg c1, if_neg c2, if_neg c3, if_pos c4, if_pos c5]
        rw [utf8DecodeAux_irrel (tl.length + 1 + 1) tl.length tl (by omega) (le_refl _)]
        have e : (224 + c.toNat / 4096 - 224) * 4096 + (128 + c.toNat / 64 % 64 - 128) * 64
            + (128 + c.toNat % 64 - 128) = c.toNat := by
          omega
        simp only [e, Char.ofNat_toNat]
        rfl
      · have he : encChar c.toNat = [240 + c.toNat / 262144, 128 + c.toNat / 4096 % 64,
            128 + c.toNat / 64 % 64, 128 + c.toNat % 64] := by
          unfold encChar
          rw [if_neg h1, if_neg h2, if_neg h3]
        rw [he]
        have c1 : ¬ 240 + c.toNat / 262144 < 128 := by omega
        have c2 : ¬ 240 + c.toNat / 262144 < 192 := by omega
        have c3 : ¬ 240 + c.toNat / 262144 < 224 := by omega
        have c4 : ¬ 240 + c.toNat / 262144 < 240 := by omega
        have c5 : 240 + c.toNat / 262144 < 248 := by omega
        have c6 : ((128 ≤ 128 + c.toNat / 4096 % 64 && 128 + c.toNat / 4096 % 64 < 192) &&
            ((128 ≤ 128 + c.toNat / 64 % 64 && 128 + c.toNat / 64 % 64 < 192) &&
             (128 ≤ 128 + c.toNat % 64 && 128 + c.toNat % 64 < 192))) = true := by
          simp only [Bool.and_eq_true, decide_eq_true_eq]
          omega
        show utf8DecodeAux ((240 + c.toNat / 262144) :: (128 + c.toNat / 4096 % 64) ::
          (128 + c.toNat / 64 % 64) :: (128 + c.toNat % 64) :: tl).length
          ((240 + c.toNat / 262144) :: (128 + c.toNat / 4096 % 64) ::
          (128 + c.toNat / 64 % 64) :: (128 + c.toNat % 64) :: tl) = _
        simp only [List.length_cons, utf8DecodeAux, List.headD_cons, List.tail_cons]
        rw [if_neg c1, if_neg c2, if_neg c3, if_neg c4, if_pos c5, if_pos c6]
        rw [utf8DecodeAux_irrel (tl.length + 1 + 1 + 1) tl.length tl (by omega) (le_refl _)]
        have e : (240 + c.toNat / 262144 - 240) * 262144 + (128 + c.toNat / 4096 % 64 - 128)
            * 4096 + (128 + c.toNat / 64 % 64 - 128) * 64 + (128 + c.toNat % 64 - 128)
            = c.toNat := by
          omega
        simp only [e, Char.ofNat_toNat]
        rfl

theorem utf8Decode_utf8Encode : ∀ cs : List Char, utf8Decode (utf8Encode cs) = some cs
  | [] => rfl
  | c :: cs => by
    show utf8Decode (encChar c.toNat ++ utf8Encode cs) = _
    rw [utf8Decode_encChar, utf8Decode_utf8Encode cs]
    rfl

theorem base64_roundtrip (s : String) : Base64.decode (Base64.encode s) = s := by
  unfold Base64.encode Base64.decode
  simp only [dataMk, decode64_encode64 (utf8Encode s.data) (utf8Encode_bytes_lt s.data),
    utf8Decode_utf8Encode]

/-! ## Lemmas about the decoder and the JSON branch -/

theorem decodeOutput_ok_fields (s : String) (label : Option String) (c : Content)
    (h : decodeOutput s label = .ok c) : c.label = label ∧ c.contentType = classify s := by
  simp only [decodeOutput] at h
  split at h
  · cases h
  · cases h
    exact ⟨rfl, rfl⟩

theorem decodeOutput_unknown (s : String) (label : Option String)
    (h : classify s = .Unknown) :
    decodeOutput s label = .error (.unsupportedFormat label s) := by
  simp only [decodeOutput]
  rw [if_pos h]

theorem decodeOutput_ok_ne_unknown (s : String) (label : Option String) (c : Content)
    (h : decodeOutput s label = .ok c) : c.contentType ≠ .Unknown := by
  simp only [decodeOutput] at h
  split at h
  · cases h
  · cases h
    assumption

theorem lookupField_insertField_self (fs : List (String × Json)) (k : String) (v : Json) :
    lookupField (insertField fs k v) k = some v := by
  induction fs with
  | nil => simp [insertField, lookupField]
  | cons p rest ih =>
    obtain ⟨k', v'⟩ := p
    by_cases h : (k' == k) = true
    · simp [insertField, h, lookupField]
    · simp [insertField, h, lookupField, ih]

theorem lookupField_insertField_ne (fs : List (String × Json)) (k k' : String) (v : Json)
    (hne : k' ≠ k) : lookupField (insertField fs k v) k' = lookupField fs k' := by
  have hkk : (k == k') = false := by
    simp only [beq_eq_false_iff_ne, ne_eq]
    exact fun h => hne h.symm
  induction fs with
  | nil => simp [insertField, lookupField, hkk]
  | cons p rest ih =>
    obtain ⟨k0, v0⟩ := p
    by_cases h : (k0 == k) = true
    · have hk0 : k0 = k := by simp_all
      subst hk0
      simp [insertField, lookupField, hkk]
    · by_cases h2 : (k0 == k') = true
      · simp [insertField, h, lookupField, h2]
      · simp [insertField, h, lookupField, h2, ih]

theorem getField_obj_some (j : Json) (k : String) (v : Json)
    (h : j.getField k = some v) : ∃ fs, j = .obj fs := by
  cases j <;> simp [Json.getField] at h ⊢

theorem getField_setField_self (fs : List (String × Json)) (k : String) (v : Json) :
    (Json.setField (.obj fs) k v).getField k = some v := by
  simp only [Json.setField, Json.getField]
  exact lookupField_insertField_self fs k v

theorem getField_setField_ne (fs : List (String × Json)) (k k' : String) (v : Json)
    (hne : k' ≠ k) :
    (Json.setField (.obj fs) k v).getField k' = (Json.obj fs).getField k' := by
  simp only [Json.setField, Json.getField]
  exact lookupField_insertField_ne fs k k' v hne

theorem setField_obj (fs : List (String × Json)) (k : String) (v : Json) :
    ∃ fs2, Json.setField (.obj fs) k v = .obj fs2 := ⟨insertField fs k v, rfl⟩

theorem runAttr_skip (ts : Nat) (attr : String) (cs : List Content) (j : Json)
    (h : ∀ v, j.getField attr = some v → jsTruthy v = false) :
    runAttr ts attr (cs, j) = .ok (cs, j) := by
  cases hget : j.getField attr with
  | none => simp [runAttr, hget]
  | some v => simp [runAttr, hget, h v hget]

theorem runAttr_ok_cases (ts : Nat) (attr : String) (cs cs' : List Content) (j j' : Json)
    (h : runAttr ts attr (cs, j) = .ok (cs', j')) :
    (cs' = cs ∧ j' = j) ∨
    ∃ s c, j.getField attr = some (.str s) ∧ decodeOutput s (some attr) = .ok c ∧
      cs' = cs ++ [c] ∧ j' = j.setField attr (.str (trim s ts)) := by
  cases hget : j.getField attr with
  | none =>
    simp only [runAttr, hget] at h
    injection h with h2
    injection h2 with ha hb
    exact Or.inl ⟨ha.symm, hb.symm⟩
  | some v =>
    simp only [runAttr, hget] at h
    by_cases ht : jsTruthy v = true
    · rw [if_pos ht] at h
      cases v with
      | str s =>
        cases hdec : decodeOutput s (some attr) with
        | error e => simp [hdec] at h
        | ok c =>
          simp only [hdec] at h
          injection h with h2
          injection h2 with ha hb
          exact Or.inr ⟨s, c, rfl, hdec, ha.symm, hb.symm⟩
      | null => simp at h
      | bool b => simp at h
      | num raw => simp at h
      | arr elems => simp at h
      | obj fields => simp at h
    · rw [if_neg ht] at h
      injection h with h2
      injection h2 with ha hb
      exact Or.inl ⟨ha.symm, hb.symm⟩

theorem parse_ok_cases (output : String) (gas : Int) (ts : Nat) (r : ParsedOutput)
    (hr : parseContractFunctionOutput output gas ts = .ok r) :
    (∃ j st1 st2 cs j3,
        runAttr ts "image" ([], j) = .ok st1 ∧
        runAttr ts "image_data" st1 = .ok st2 ∧
        runAttr ts "animation_url" st2 = .ok (cs, j3) ∧
        cs.isEmpty = false ∧ r = ⟨gas, cs, some j3⟩) ∨
    (∃ c jv, decodeOutput output none = .ok c ∧
        r = ⟨gas, [⟨none, c.content, c.contentType⟩], jv⟩) := by
  simp only [parseContractFunctionOutput] at hr
  cases hdu : parseDataUrl output with
  | some mc =>
    rw [hdu] at hr
    by_cases hmt : (mc.mediaType == "application/json") = true
    · simp only [hmt, if_true] at hr
      cases hjs : parseJsonString mc.data with
      | some j =>
        simp only [hjs] at hr
        by_cases htr : jsTruthy j = true
        · rw [if_pos htr] at hr
          cases h1 : runAttr ts "image" ([], j) with
          | error e => simp [h1] at hr
          | ok st1 =>
            simp only [h1] at hr
            cases h2 : runAttr ts "image_data" st1 with
            | error e => simp [h2] at hr
            | ok st2 =>
              simp only [h2] at hr
              cases h3 : runAttr ts "animation_url" st2 with
              | error e => simp [h3] at hr
              | ok p =>
                obtain ⟨cs, j3⟩ := p
                simp only [h3] at hr
                cases hemp : cs.isEmpty
                · rw [hemp] at hr
                  simp only [Bool.false_eq_true, if_false] at hr
                  injection hr with h4
                  exact Or.inl ⟨j, st1, st2, cs, j3, h1, h2, h3, hemp, h4.symm⟩
                · rw [hemp] at hr
                  simp at hr
        · have htr2 : jsTruthy j = false := by
            revert htr
            cases jsTruthy j <;> simp
          rw [htr2] at hr
          simp only [Bool.false_eq_true, if_false] at hr
          cases hdec : decodeOutput output none with
          | error e => simp [hdec] at hr
          | ok c =>
            simp only [hdec] at hr
            injection hr with h4
            exact Or.inr ⟨c, some j, rfl, h4.symm⟩
      | none => simp [hjs] at hr
    · have hmt2 : (mc.mediaType == "application/json") = false := by
        revert hmt
        cases (mc.mediaType == "application/json") <;> simp
      simp only [hmt2, Bool.false_eq_true, if_false] at hr
      cases hdec : decodeOutput output none with
      | error e => simp [hdec] at hr
      | ok c =>
        simp only [hdec] at hr
        injection hr with h4
        exact Or.inr ⟨c, none, rfl, h4.symm⟩
  | none =>
    rw [hdu] at hr
    simp only [] at hr
    cases hdec : decodeOutput output none with
    | error e => simp [hdec] at hr
    | ok c =>
      simp only [hdec] at hr
      injection hr with h4
      exact Or.inr ⟨c, none, rfl, h4.symm⟩

/-! ## Further helper lemmas for the claims -/

theorem jsToLower_data (s : String) : (jsToLower s).data = s.data.map jsCharLower := rfl

theorem isPrefixOf_false_of_head_ne (p : List Char) (c0 c1 : Char) (t1 t2 : List Char)
    (hp : p = c0 :: t1) (hne : (c0 == c1) = false) :
    p.isPrefixOf (c1 :: t2) = false := by
  subst hp
  simp only [List.isPrefixOf, hne, Bool.false_and]

theorem beq_false_of_lower_ne (a target c0 : Char) (ha : jsCharLower a = c0)
    (h : jsCharLower target ≠ c0) : (target == a) = false := by
  cases hbe : (target == a)
  · rfl
  · have heq : target = a := by simpa using hbe
    rw [← heq] at ha
    exact absurd ha h

theorem jsSubstring_full (s : String) (b : Nat) (h : s.data.length ≤ b) :
    jsSubstring s 0 b = s := by
  simp only [jsSubstring]
  have e2 : max (min 0 s.data.length) (min b s.data.length)
      - min (min 0 s.data.length) (min b s.data.length) = s.data.length := by
    omega
  have e1 : min (min 0 s.data.length) (min b s.data.length) = 0 := by
    omega
  rw [e2, e1]
  simp only [List.drop_zero, List.take_length]

theorem runAttr_all_good (ts : Nat) (attr : String) (st st' : List Content × Json)
    (h : runAttr ts attr st = .ok st')
    (hP : ∀ x ∈ st.1, x.contentType ≠ .Unknown) :
    ∀ x ∈ st'.1, x.contentType ≠ .Unknown := by
  obtain ⟨cs, j⟩ := st
  obtain ⟨cs', j'⟩ := st'
  rcases runAttr_ok_cases ts attr cs cs' j j' h with ⟨h1, _⟩ | ⟨s, c, _, hdec, h1, _⟩
  · subst h1
    exact hP
  · subst h1
    intro x hx
    rcases List.mem_append.mp hx with hx | hx
    · exact hP x hx
    · simp at hx
      rw [hx]
      exact decodeOutput_ok_ne_unknown s (some attr) c hdec

theorem parseTest_ok_inv (output : String) (r : ParsedOutput)
    (hr : parseTestOutput output = .ok r) :
    ∃ g, jsParseInt (getTextBetween output "<NFT_GAS>" "</NFT_GAS>") = some g ∧
      parseContractFunctionOutput
        (jsTrimStr (getTextBetween output "<NFT_OUTPUT>" "</NFT_OUTPUT>")) g 100 = .ok r := by
  simp only [parseTestOutput] at hr
  cases hg : jsParseInt (getTextBetween output "<NFT_GAS>" "</NFT_GAS>") with
  | none => simp [hg] at hr
  | some g =>
    rw [hg] at hr
    exact ⟨g, rfl, hr⟩

/-! ## The claims -/

/-- C2: for every input containing the sentinel markers, `parseTestOutput`
returns exactly the result of `parseContractFunctionOutput` applied to the
whitespace-trimmed substring between the first `<NFT_OUTPUT>` and the last
`</NFT_OUTPUT>`, with `gas` the integer extracted from the `<NFT_GAS>`
sentinels instead of the default `0`. -/
theorem c2_test_refines_function_parse (output : String) (g : Int)
    (h1 : jsIndexOf output "<NFT_GAS>" ≠ none)
    (h2 : jsLastIndexOf output "</NFT_GAS>" ≠ none)
    (h3 : jsIndexOf output "<NFT_OUTPUT>" ≠ none)
    (h4 : jsLastIndexOf output "</NFT_OUTPUT>" ≠ none)
    (hg : jsParseInt (getTextBetween output "<NFT_GAS>" "</NFT_GAS>") = some g) :
    parseTestOutput output =
      parseContractFunctionOutput
        (jsTrimStr (getTextBetween output "<NFT_OUTPUT>" "</NFT_OUTPUT>")) g 100 := by
  simp only [parseTestOutput, hg]

theorem c2_witness :
    parseTestOutput "<NFT_GAS>12345</NFT_GAS><NFT_OUTPUT>http://example.com/a.png</NFT_OUTPUT>" =
      parseContractFunctionOutput
        (jsTrimStr (getTextBetween
          "<NFT_GAS>12345</NFT_GAS><NFT_OUTPUT>http://example.com/a.png</NFT_OUTPUT>"
          "<NFT_OUTPUT>" "</NFT_OUTPUT>")) 12345 100 :=
  c2_test_refines_function_parse _ 12345 (by decide) (by decide) (by decide) (by decide) rfl

/-- C3 counterexample: the claim says a successful `parseTestOutput` carries
a non-negative gas integer, but `parseInt` accepts a sign, so the gas
sentinel `-5` produces a successful parse with negative gas. -/
theorem c3_counterexample :
    parseTestOutput "<NFT_GAS>-5</NFT_GAS><NFT_OUTPUT>http://e.com/a.png</NFT_OUTPUT>" =
      .ok ⟨-5, [⟨none, "http://e.com/a.png", .PNG⟩], none⟩ ∧ (-5 : Int) < 0 :=
  ⟨rfl, by decide⟩

/-- C3 amended: when the gas substring fails JavaScript `parseInt` (including
the empty substring left by a missing marker) the call fails with
`InvalidGasFormat` carrying the substring and the full input — never a
default; when `parseInt` succeeds, the parse proceeds with that integer
(possibly negative, and read from a digit prefix under `parseInt`
semantics), and any successful result carries exactly that gas value. -/
theorem c3_amended (output : String) :
    (jsParseInt (getTextBetween output "<NFT_GAS>" "</NFT_GAS>") = none →
      parseTestOutput output =
        .error (.invalidGasFormat (getTextBetween output "<NFT_GAS>" "</NFT_GAS>") output)) ∧
    (∀ g, jsParseInt (getTextBetween output "<NFT_GAS>" "</NFT_GAS>") = some g →
      parseTestOutput output =
        parseContractFunctionOutput
          (jsTrimStr (getTextBetween output "<NFT_OUTPUT>" "</NFT_OUTPUT>")) g 100 ∧
      ∀ r, parseTestOutput output = .ok r → r.gas = g) := by
  constructor
  · intro hn
    simp only [parseTestOutput, hn]
  · intro g hg
    constructor
    · simp only [parseTestOutput, hg]
    · intro r hr
      simp only [parseTestOutput, hg] at hr
      rcases parse_ok_cases _ g 100 r hr with ⟨_, _, _, _, _, _, _, _, _, hre⟩ |
        ⟨_, _, _, hre⟩ <;> rw [hre]

theorem c3_amended_witness :
    parseTestOutput "<NFT_OUTPUT>http://e.com/a.png</NFT_OUTPUT>" =
      .error (.invalidGasFormat "" "<NFT_OUTPUT>http://e.com/a.png</NFT_OUTPUT>") :=
  (c3_amended "<NFT_OUTPUT>http://e.com/a.png</NFT_OUTPUT>").1 rfl

/-- C4 counterexample: the claim says a string of length exactly `trimSize`
is returned unchanged, but the source truncates whenever
`length < trimSize` fails, so a string of length `trimSize` is truncated. -/
theorem c4_counterexample : trim "ab" 2 ≠ "ab" := by decide

/-- C4 amended: `trim` returns the input unchanged only for strings
strictly shorter than `trimSize`; a string of length exactly `trimSize` IS
truncated (its first `trimSize` characters — the whole input — plus the
length annotation), and a string of length `trimSize + 1` is truncated to
its first `trimSize` characters plus the annotation. -/
theorem c4_amended (s : String) (ts : Nat) :
    (s.data.length = ts →
      trim s ts = s ++ "... (" ++ toString ts ++ " bytes total)") ∧
    (s.data.length = ts + 1 →
      trim s ts = jsSubstring s 0 ts ++ "... (" ++ toString (ts + 1) ++ " bytes total)") ∧
    (s.data.length < ts → trim s ts = s) := by
  refine ⟨?_, ?_, ?_⟩
  · intro h
    simp only [trim, h, lt_irrefl, if_false]
    rw [jsSubstring_full s ts (le_of_eq h)]
  · intro h
    simp only [trim, h]
    rw [if_neg (by omega)]
  · intro h
    simp only [trim]
    rw [if_pos h]

theorem c4_amended_witness :
    trim "ab" 2 = "ab" ++ "... (" ++ toString 2 ++ " bytes total)" ∧
    trim "abc" 2 = jsSubstring "abc" 0 2 ++ "... (" ++ toString (2 + 1) ++ " bytes total)" :=
  ⟨(c4_amended "ab" 2).1 rfl, (c4_amended "abc" 2).2.1 rfl⟩

/-- C5: `Unknown` never reaches the caller: every `Content` in a successful
`ParsedOutput` has a `contentType` other than `Unknown`; whenever the
sniffing classifies a string as `Unknown` (e.g. `"foo.xyz"`), the decoder
fails with `UnsupportedFormat` naming the attribute label when one was
given; and a successful decode never returns `Unknown`. -/
theorem c5_no_unknown_reaches_caller :
    (∀ (output : String) (gas : Int) (ts : Nat) (r : ParsedOutput),
        parseContractFunctionOutput output gas ts = .ok r →
        ∀ c ∈ r.content, c.contentType ≠ .Unknown) ∧
    (∀ (s : String) (label : Option String),
        classify s = .Unknown →
        decodeOutput s label = .error (.unsupportedFormat label s)) ∧
    (∀ (s : String) (label : Option String) (c : Content),
        decodeOutput s label = .ok c → c.contentType ≠ .Unknown) := by
  refine ⟨?_, decodeOutput_unknown, decodeOutput_ok_ne_unknown⟩
  intro output gas ts r hr c hc
  rcases parse_ok_cases output gas ts r hr with
    ⟨j, st1, st2, cs, j3, hr1, hr2, hr3, hemp, hre⟩ | ⟨c0, jv, hdec, hre⟩
  · subst hre
    have g0 : ∀ x ∈ ([] : List Content), x.contentType ≠ .Unknown := by simp
    have g1 := runAttr_all_good ts "image" ([], j) st1 hr1 g0
    have g2 := runAttr_all_good ts "image_data" st1 st2 hr2 g1
    have g3 := runAttr_all_good ts "animation_url" st2 (cs, j3) hr3 g2
    exact g3 c hc
  · subst hre
    simp at hc
    subst hc
    exact decodeOutput_ok_ne_unknown output none c0 hdec

theorem c5_witness :
    decodeOutput "foo.xyz" none = .error (.unsupportedFormat none "foo.xyz") :=
  c5_no_unknown_reaches_caller.2.1 "foo.xyz" none rfl

/-- C6: a successful parse never returns an empty content sequence: the
JSON branch fails with `NoRenderableAttribute` when none of the three media
attributes is present and truthy, and the non-JSON branch produces exactly
one `Content`; the same holds through `parseTestOutput`. -/
theorem c6_content_nonempty :
    (∀ (output : String) (gas : Int) (ts : Nat) (r : ParsedOutput),
        parseContractFunctionOutput output gas ts = .ok r → r.content ≠ []) ∧
    (∀ (output : String) (r : ParsedOutput),
        parseTestOutput output = .ok r → r.content ≠ []) ∧
    (∀ (output : String) (gas : Int) (ts : Nat) (mc : MimeContent) (j : Json),
        parseDataUrl output = some mc → mc.mediaType = "application/json" →
        parseJsonString mc.data = some j → jsTruthy j = true →
        (∀ attr, attr = "image" ∨ attr = "image_data" ∨ attr = "animation_url" →
          ∀ v, j.getField attr = some v → jsTruthy v = false) →
        parseContractFunctionOutput output gas ts = .error (.noRenderableAttribute j)) ∧
    (∀ (output : String) (gas : Int) (ts : Nat) (r : ParsedOutput),
        parseDataUrl output = none →
        parseContractFunctionOutput output gas ts = .ok r → r.content.length = 1) := by
  have main : ∀ (output : String) (gas : Int) (ts : Nat) (r : ParsedOutput),
      parseContractFunctionOutput output gas ts = .ok r → r.content ≠ [] := by
    intro output gas ts r hr
    rcases parse_ok_cases output gas ts r hr with
      ⟨j, st1, st2, cs, j3, hr1, hr2, hr3, hemp, hre⟩ | ⟨c0, jv, hdec, hre⟩
    · subst hre
      intro hnil
      simp only at hnil
      subst hnil
      simp at hemp
    · subst hre
      simp
  refine ⟨main, ?_, ?_, ?_⟩
  · intro output r hr
    obtain ⟨g, hg, hp⟩ := parseTest_ok_inv output r hr
    exact main _ g 100 r hp
  · intro output gas ts mc j hdu hmt hjs htr hnone
    have hi := runAttr_skip ts "image" [] j (hnone "image" (by simp))
    have hid := runAttr_skip ts "image_data" [] j (hnone "image_data" (by simp))
    have ha := runAttr_skip ts "animation_url" [] j (hnone "animation_url" (by simp))
    simp only [parseContractFunctionOutput, hdu, hmt, beq_self_eq_true, if_true, hjs,
      htr, hi, hid, ha]
    rfl
  · intro output gas ts r hdu hr
    rcases parse_ok_cases output gas ts r hr with
      ⟨j, st1, st2, cs, j3, hr1, hr2, hr3, hemp, hre⟩ | ⟨c0, jv, hdec, hre⟩
    · exfalso
      simp only [parseContractFunctionOutput, hdu] at hr
      cases hdec : decodeOutput output none with
      | error e => simp [hdec] at hr
      | ok c =>
        rw [hdec] at hr
        injection hr with h4
        rw [← h4] at hre
        simp at hre
    · subst hre
      simp

theorem c6_witness :
    (⟨0, [⟨none, "http://e.com/a.png", .PNG⟩], none⟩ : ParsedOutput).content ≠ [] :=
  c6_content_nonempty.1 "http://e.com/a.png" 0 100 _ rfl

theorem dataAppend (a b : String) : (a ++ b).data = a.data ++ b.data := by
  cases a
  cases b
  rfl

/-- C7: a non-data-URL input starting with `<svg` (case-insensitively) is
wrapped into a canonical base64 SVG data URL whose base64 part decodes back
to the original input exactly, with contentType `SVG`. -/
theorem c7_svg_roundtrip (s : String) (label : Option String)
    (hdu : parseDataUrl s = none)
    (hsvg : jsStartsWith (jsToLower s) "<svg" = true) :
    decodeOutput s label =
      .ok ⟨label, "data:image/svg+xml;base64," ++ Base64.encode s, .SVG⟩ ∧
    Base64.decode (Base64.encode s) = s := by
  refine ⟨?_, base64_roundtrip s⟩
  have hd := eq_append_drop_of_prefixOf "<svg".data (jsToLower s).data hsvg
  have hhead : ∃ a t, s.data = a :: t ∧ jsCharLower a = '<' := by
    cases hs : s.data with
    | nil =>
      rw [jsToLower_data, hs] at hd
      simp at hd
    | cons a t =>
      refine ⟨a, t, rfl, ?_⟩
      rw [jsToLower_data, hs] at hd
      rw [show "<svg".data = '<' :: "svg".data from rfl, List.cons_append] at hd
      simp only [List.map_cons, List.cons.injEq] at hd
      exact hd.1
  obtain ⟨a, t, hs, ha⟩ := hhead
  have hlow_http : jsStartsWith (jsToLower s) "http" = false := by
    rw [jsStartsWith, hd]
    exact prefixOf_append_of_take_ne _ _ _ (by decide) (by decide)
  have hutf8 : jsStartsWith s "data:image/svg+xml;utf8," = false := by
    rw [jsStartsWith, hs]
    exact isPrefixOf_false_of_head_ne _ 'd' a _ t rfl
      (beq_false_of_lower_ne a 'd' '<' ha (by decide))
  have hsub : sniffSubtype s = "svg" := by
    simp only [sniffSubtype, hdu]
    rw [if_pos hsvg]
  have hcls : classify s = .SVG := by
    simp only [classify, hsub]
    rfl
  simp only [decodeOutput, hdu, hcls, hlow_http, hsvg, hutf8]
  rfl

theorem c7_witness :
    decodeOutput "<svg/>" none =
      .ok ⟨none, "data:image/svg+xml;base64," ++ Base64.encode "<svg/>", .SVG⟩ ∧
    Base64.decode (Base64.encode "<svg/>") = "<svg/>" :=
  c7_svg_roundtrip "<svg/>" none rfl rfl

/-- C8: decoding an already-canonical base64 SVG data URL passes the input
through byte-identically, with contentType `SVG`. -/
theorem c8_canonical_svg_idempotent (b64 : String) (label : Option String)
    (hvalid : (decode64 b64.data).isSome = true) :
    decodeOutput ("data:image/svg+xml;base64," ++ b64) label =
      .ok ⟨label, "data:image/svg+xml;base64," ++ b64, .SVG⟩ := rfl

theorem c8_witness :
    decodeOutput ("data:image/svg+xml;base64," ++ "PHN2Zz48L3N2Zz4=") none =
      .ok ⟨none, "data:image/svg+xml;base64," ++ "PHN2Zz48L3N2Zz4=", .SVG⟩ :=
  c8_canonical_svg_idempotent "PHN2Zz48L3N2Zz4=" none (by decide)

/-- C9 counterexample: `data:application/html;base64,...` is a data URL
whose declared media type classifies as HTML and whose encoding is
`;base64,`, yet the decoder passes it through unchanged instead of
returning the base64-decoded markup — the code only decodes the exact
`data:text/html;base64,` spelling. -/
theorem c9_counterexample :
    decodeOutput "data:application/html;base64,PGI+aGk8L2I+" none =
      .ok ⟨none, "data:application/html;base64,PGI+aGk8L2I+", .HTML⟩ ∧
    Base64.decode "PGI+aGk8L2I+" = "<b>hi</b>" ∧
    ("data:application/html;base64,PGI+aGk8L2I+" : String) ≠ "<b>hi</b>" :=
  ⟨rfl, rfl, by decide⟩

/-- C9 amended: only inputs with the exact literal prefix
`data:text/html;base64,` are re-decoded: for those the decoder returns the
base64-decoding of the remainder (the raw markup) with contentType `HTML`;
an HTML-classified base64 data URL with any other media-type spelling
passes through unchanged. -/
theorem c9_amended (B : String) (label : Option String) :
    decodeOutput ("data:text/html;base64," ++ B) label =
      .ok ⟨label, Base64.decode B, .HTML⟩ := by
  have hpre : jsStartsWith ("data:text/html;base64," ++ B) "data:text/html;base64," = true := by
    rw [jsStartsWith, dataAppend]
    exact prefixOf_append_self _ _
  have hdu : parseDataUrl ("data:text/html;base64," ++ B) =
      some ⟨"text/html", Base64.decode B⟩ := rfl
  have hcls : classify ("data:text/html;base64," ++ B) = .HTML := rfl
  simp only [decodeOutput, hdu, hcls, hpre]
  rfl

/-- C10: a non-data-URL input that starts with `http` and whose extension
(the substring after the last `.`) lowercases to `html` is classified as
`HTML` — extension sniffing wins over the `http` fallback to `Link` — and
the URL string itself is returned unchanged as the content. -/
theorem c10_http_html_extension (s : String) (label : Option String)
    (hdu : parseDataUrl s = none)
    (hh : jsStartsWith s "http" = true)
    (hext : afterLast '.' (jsToLower s) = "html") :
    decodeOutput s label = .ok ⟨label, s, .HTML⟩ := by
  have hs := eq_append_drop_of_prefixOf "http".data s.data hh
  have hlow : (jsToLower s).data =
      "http".data ++ (s.data.drop ("http".data).length).map jsCharLower := by
    rw [jsToLower_data]
    conv_lhs => rw [hs]
    rw [List.map_append]
    congr 1
  have hlow_svg : jsStartsWith (jsToLower s) "<svg" = false := by
    rw [jsStartsWith, hlow]
    rw [show "http".data = 'h' :: "ttp".data from rfl, List.cons_append]
    exact isPrefixOf_false_of_head_ne _ '<' 'h' _ _ rfl (by decide)
  have hlow_html : jsStartsWith (jsToLower s) "<html" = false := by
    rw [jsStartsWith, hlow]
    rw [show "http".data = 'h' :: "ttp".data from rfl, List.cons_append]
    exact isPrefixOf_false_of_head_ne _ '<' 'h' _ _ rfl (by decide)
  have hlow_http : jsStartsWith (jsToLower s) "http" = true := by
    rw [jsStartsWith, hlow]
    exact prefixOf_append_self _ _
  have hdata_check : jsStartsWith s "data:text/html;base64," = false := by
    rw [jsStartsWith]
    conv_lhs => rw [hs]
    rw [show "http".data = 'h' :: "ttp".data from rfl, List.cons_append]
    exact isPrefixOf_false_of_head_ne _ 'd' 'h' _ _ rfl (by decide)
  have hsub : sniffSubtype s = "html" := by
    simp only [sniffSubtype, hdu, hlow_svg, hlow_html, Bool.false_eq_true, if_false]
    exact hext
  have hcls : classify s = .HTML := by
    simp only [classify, hsub]
    rfl
  simp only [decodeOutput, hdu, hcls, hlow_http, hdata_check]
  rfl

theorem c10_witness :
    decodeOutput "http://example.com/page.html" none =
      .ok ⟨none, "http://example.com/page.html", .HTML⟩ :=
  c10_http_html_extension "http://example.com/page.html" none rfl rfl rfl

/-- C1: for a data URL carrying `application/json` whose payload parses to
an object with all three media attributes present and truthy, a successful
parse returns exactly three `Content` items, in the fixed order
`[image, image_data, animation_url]`, each labelled with its attribute
name, and in the returned JSON each attribute value is replaced by the
truncated display string iff its original length is at least `trimSize`
(otherwise left unchanged). -/
theorem c1_json_three_attrs (output : String) (gas : Int) (ts : Nat) (mc : MimeContent)
    (j : Json) (r : ParsedOutput)
    (hurl : parseDataUrl output = some mc)
    (hmt : mc.mediaType = "application/json")
    (hjson : parseJsonString mc.data = some j)
    (himg : ∃ v, j.getField "image" = some v ∧ jsTruthy v = true)
    (himgd : ∃ v, j.getField "image_data" = some v ∧ jsTruthy v = true)
    (hanim : ∃ v, j.getField "animation_url" = some v ∧ jsTruthy v = true)
    (hr : parseContractFunctionOutput output gas ts = .ok r) :
    r.content.length = 3 ∧
    ∃ s1 s2 s3 c1 c2 c3,
      j.getField "image" = some (.str s1) ∧
      j.getField "image_data" = some (.str s2) ∧
      j.getField "animation_url" = some (.str s3) ∧
      decodeOutput s1 (some "image") = .ok c1 ∧
      decodeOutput s2 (some "image_data") = .ok c2 ∧
      decodeOutput s3 (some "animation_url") = .ok c3 ∧
      r.content = [c1, c2, c3] ∧
      c1.label = some "image" ∧
      c2.label = some "image_data" ∧
      c3.label = some "animation_url" ∧
      ∃ j3, r.json = some j3 ∧
        j3.getField "image" = some (.str (if s1.data.length < ts then s1
          else jsSubstring s1 0 ts ++ "... (" ++ toString s1.data.length
            ++ " bytes total)")) ∧
        j3.getField "image_data" = some (.str (if s2.data.length < ts then s2
          else jsSubstring s2 0 ts ++ "... (" ++ toString s2.data.length
            ++ " bytes total)")) ∧
        j3.getField "animation_url" = some (.str (if s3.data.length < ts then s3
          else jsSubstring s3 0 ts ++ "... (" ++ toString s3.data.length
            ++ " bytes total)")) := by
  obtain ⟨v1, hv1, ht1⟩ := himg
  obtain ⟨v2, hv2, ht2⟩ := himgd
  obtain ⟨v3, hv3, ht3⟩ := hanim
  obtain ⟨fs, rfl⟩ := getField_obj_some j "image" v1 hv1
  cases v1 with
  | null => simp [jsTruthy] at ht1
  | bool b =>
    have herr : runAttr ts "image" ([], Json.obj fs) = .error .typeError := by
      simp [runAttr, hv1, ht1]
    have hp : parseContractFunctionOutput output gas ts = .error .typeError := by
      simp [parseContractFunctionOutput, hurl, hmt, hjson, jsTruthy, herr]
    rw [hp] at hr
    simp at hr
  | num raw =>
    have herr : runAttr ts "image" ([], Json.obj fs) = .error .typeError := by
      simp [runAttr, hv1, ht1]
    have hp : parseContractFunctionOutput output gas ts = .error .typeError := by
      simp [parseContractFunctionOutput, hurl, hmt, hjson, jsTruthy, herr]
    rw [hp] at hr
    simp at hr
  | arr elems =>
    have herr : runAttr ts "image" ([], Json.obj fs) = .error .typeError := by
      simp [runAttr, hv1, ht1]
    have hp : parseContractFunctionOutput output gas ts = .error .typeError := by
      simp [parseContractFunctionOutput, hurl, hmt, hjson, jsTruthy, herr]
    rw [hp] at hr
    simp at hr
  | obj fields =>
    have herr : runAttr ts "image" ([], Json.obj fs) = .error .typeError := by
      simp [runAttr, hv1, ht1]
    have hp : parseContractFunctionOutput output gas ts = .error .typeError := by
      simp [parseContractFunctionOutput, hurl, hmt, hjson, jsTruthy, herr]
    rw [hp] at hr
    simp at hr
  | str s1 =>
    cases hdec1 : decodeOutput s1 (some "image") with
    | error e =>
      have herr : runAttr ts "image" ([], Json.obj fs) = .error e := by
        simp [runAttr, hv1, ht1, hdec1]
      have hp : parseContractFunctionOutput output gas ts = .error e := by
        simp [parseContractFunctionOutput, hurl, hmt, hjson, jsTruthy, herr]
      rw [hp] at hr
      simp at hr
    | ok c1 =>
      have h1 : runAttr ts "image" ([], Json.obj fs) =
          .ok ([c1], (Json.obj fs).setField "image" (.str (trim s1 ts))) := by
        simp [runAttr, hv1, ht1, hdec1]
      obtain ⟨fs1, hfs1⟩ := setField_obj fs "image" (.str (trim s1 ts))
      have hg2 : ((Json.obj fs).setField "image" (.str (trim s1 ts))).getField "image_data"
          = some v2 := by
        rw [getField_setField_ne fs _ _ _ (by decide)]
        exact hv2
      cases v2 with
      | null => simp [jsTruthy] at ht2
      | bool b =>
        have herr : runAttr ts "image_data"
            ([c1], (Json.obj fs).setField "image" (.str (trim s1 ts))) =
            .error .typeError := by
          simp [runAttr, hg2, ht2]
        have hp : parseContractFunctionOutput output gas ts = .error .typeError := by
          simp [parseContractFunctionOutput, hurl, hmt, hjson, jsTruthy, h1, herr]
        rw [hp] at hr
        simp at hr
      | num raw =>
        have herr : runAttr ts "image_data"
            ([c1], (Json.obj fs).setField "image" (.str (trim s1 ts))) =
            .error .typeError := by
          simp [runAttr, hg2, ht2]
        have hp : parseContractFunctionOutput output gas ts = .error .typeError := by
          simp [parseContractFunctionOutput, hurl, hmt, hjson, jsTruthy, h1, herr]
        rw [hp] at hr
        simp at hr
      | arr elems =>
        have herr : runAttr ts "image_data"
            ([c1], (Json.obj fs).setField "image" (.str (trim s1 ts))) =
            .error .typeError := by
          simp [runAttr, hg2, ht2]
        have hp : parseContractFunctionOutput output gas ts = .error .typeError := by
          simp [parseContractFunctionOutput, hurl, hmt, hjson, jsTruthy, h1, herr]
        rw [hp] at hr
        simp at hr
      | obj fields =>
        have herr : runAttr ts "image_data"
            ([c1], (Json.obj fs).setField "image" (.str (trim s1 ts))) =
            .error .typeError := by
          simp [runAttr, hg2, ht2]
        have hp : parseContractFunctionOutput output gas ts = .error .typeError := by
          simp [parseContractFunctionOutput, hurl, hmt, hjson, jsTruthy, h1, herr]
        rw [hp] at hr
        simp at hr
      | str s2 =>
        cases hdec2 : decodeOutput s2 (some "image_data") with
        | error e =>
          have herr : runAttr ts "image_data"
              ([c1], (Json.obj fs).setField "image" (.str (trim s1 ts))) = .error e := by
            simp [runAttr, hg2, ht2, hdec2]
          have hp : parseContractFunctionOutput output gas ts = .error e := by
            simp [parseContractFunctionOutput, hurl, hmt, hjson, jsTruthy, h1, herr]
          rw [hp] at hr
          simp at hr
        | ok c2 =>
          have h2 : runAttr ts "image_data"
              ([c1], (Json.obj fs).setField "image" (.str (trim s1 ts))) =
              .ok ([c1, c2], ((Json.obj fs).setField "image"
                (.str (trim s1 ts))).setField "image_data" (.str (trim s2 ts))) := by
            simp [runAttr, hg2, ht2, hdec2]
          obtain ⟨fs2, hfs2⟩ := setField_obj fs1 "image_data" (.str (trim s2 ts))
          have hg3 : (((Json.obj fs).setField "image" (.str (trim s1 ts))).setField
              "image_data" (.str (trim s2 ts))).getField "animation_url" = some v3 := by
            rw [hfs1, getField_setField_ne fs1 _ _ _ (by decide), ← hfs1,
              getField_setField_ne fs _ _ _ (by decide)]
            exact hv3
          cases v3 with
          | null => simp [jsTruthy] at ht3
          | bool b =>
            have herr : runAttr ts "animation_url" ([c1, c2],
                ((Json.obj fs).setField "image" (.str (trim s1 ts))).setField "image_data"
                  (.str (trim s2 ts))) = .error .typeError := by
              simp [runAttr, hg3, ht3]
            have hp : parseContractFunctionOutput output gas ts = .error .typeError := by
              simp [parseContractFunctionOutput, hurl, hmt, hjson, jsTruthy, h1, h2, herr]
            rw [hp] at hr
            simp at hr
          | num raw =>
            have herr : runAttr ts "animation_url" ([c1, c2],
                ((Json.obj fs).setField "image" (.str (trim s1 ts))).setField "image_data"
                  (.str (trim s2 ts))) = .error .typeError := by
              simp [runAttr, hg3, ht3]
            have hp : parseContractFunctionOutput output gas ts = .error .typeError := by
              simp [parseContractFunctionOutput, hurl, hmt, hjson, jsTruthy, h1, h2, herr]
            rw [hp] at hr
            simp at hr
          | arr elems =>
            have herr : runAttr ts "animation_url" ([c1, c2],
                ((Json.obj fs).setField "image" (.str (trim s1 ts))).setField "image_data"
                  (.str (trim s2 ts))) = .error .typeError := by
              simp [runAttr, hg3, ht3]
            have hp : parseContractFunctionOutput output gas ts = .error .typeError := by
              simp [parseContractFunctionOutput, hurl, hmt, hjson, jsTruthy, h1, h2, herr]
            rw [hp] at hr
            simp at hr
          | obj fields =>
            have herr : runAttr ts "animation_url" ([c1, c2],
                ((Json.obj fs).setField "image" (.str (trim s1 ts))).setField "image_data"
                  (.str (trim s2 ts))) = .error .typeError := by
              simp [runAttr, hg3, ht3]
            have hp : parseContractFunctionOutput output gas ts = .error .typeError := by
              simp [parseContractFunctionOutput, hurl, hmt, hjson, jsTruthy, h1, h2, herr]
            rw [hp] at hr
            simp at hr
          | str s3 =>
            cases hdec3 : decodeOutput s3 (some "animation_url") with
            | error e =>
              have herr : runAttr ts "animation_url" ([c1, c2],
                  ((Json.obj fs).setField "image" (.str (trim s1 ts))).setField "image_data"
                    (.str (trim s2 ts))) = .error e := by
                simp [runAttr, hg3, ht3, hdec3]
              have hp : parseContractFunctionOutput output gas ts = .error e := by
                simp [parseContractFunctionOutput, hurl, hmt, hjson, jsTruthy, h1, h2, herr]
              rw [hp] at hr
              simp at hr
            | ok c3 =>
              have h3 : runAttr ts "animation_url" ([c1, c2],
                  ((Json.obj fs).setField "image" (.str (trim s1 ts))).setField "image_data"
                    (.str (trim s2 ts))) =
                  .ok ([c1, c2, c3], (((Json.obj fs).setField "image"
                    (.str (trim s1 ts))).setField "image_data"
                    (.str (trim s2 ts))).setField "animation_url" (.str (trim s3 ts))) := by
                simp [runAttr, hg3, ht3, hdec3]
              have hp : parseContractFunctionOutput output gas ts =
                  .ok ⟨gas, [c1, c2, c3], some ((((Json.obj fs).setField "image"
                    (.str (trim s1 ts))).setField "image_data"
                    (.str (trim s2 ts))).setField "animation_url" (.str (trim s3 ts)))⟩ := by
                simp [parseContractFunctionOutput, hurl, hmt, hjson, jsTruthy, h1, h2, h3]
              rw [hp] at hr
              injection hr with h4
              subst h4
              have gi : ((((Json.obj fs).setField "image" (.str (trim s1 ts))).setField
                  "image_data" (.str (trim s2 ts))).setField "animation_url"
                  (.str (trim s3 ts))).getField "image" = some (.str (trim s1 ts)) := by
                rw [hfs1, hfs2, getField_setField_ne fs2 _ _ _ (by decide), ← hfs2,
                  getField_setField_ne fs1 _ _ _ (by decide), ← hfs1]
                exact getField_setField_self fs "image" _
              have gid : ((((Json.obj fs).setField "image" (.str (trim s1 ts))).setField
                  "image_data" (.str (trim s2 ts))).setField "animation_url"
                  (.str (trim s3 ts))).getField "image_data" = some (.str (trim s2 ts)) := by
                rw [hfs1, hfs2, getField_setField_ne fs2 _ _ _ (by decide), ← hfs2]
                exact getField_setField_self fs1 "image_data" _
              have ga : ((((Json.obj fs).setField "image" (.str (trim s1 ts))).setField
                  "image_data" (.str (trim s2 ts))).setField "animation_url"
                  (.str (trim s3 ts))).getField "animation_url" =
                  some (.str (trim s3 ts)) := by
                rw [hfs1, hfs2]
                exact getField_setField_self fs2 "animation_url" _
              exact ⟨rfl, s1, s2, s3, c1, c2, c3, hv1, hv2, hv3, hdec1, hdec2, hdec3, rfl,
                (decodeOutput_ok_fields s1 (some "image") c1 hdec1).1,
                (decodeOutput_ok_fields s2 (some "image_data") c2 hdec2).1,
                (decodeOutput_ok_fields s3 (some "animation_url") c3 hdec3).1,
                _, rfl, gi, gid, ga⟩

theorem c1_witness :
    (⟨7, [⟨some "image", "data:image/svg+xml;base64,PHN2Zy8+", .SVG⟩,
        ⟨some "image_data", "data:image/svg+xml;base64,PHN2Zy8+", .SVG⟩,
        ⟨some "animation_url", "http://x/a.png", .PNG⟩],
      some (.obj [("image", .str "<svg/>"), ("image_data", .str "<svg/>"),
        ("animation_url", .str "http://x/a... (14 bytes total)")])⟩ :
        ParsedOutput).content.length = 3 :=
  (c1_json_three_attrs
    "data:application/json,\x7b\"image\":\"<svg/>\",\"image_data\":\"<svg/>\",\"animation_url\":\"http://x/a.png\"\x7d"
    7 10
    ⟨"application/json",
      "\x7b\"image\":\"<svg/>\",\"image_data\":\"<svg/>\",\"animation_url\":\"http://x/a.png\"\x7d"⟩
    (.obj [("image", .str "<svg/>"), ("image_data", .str "<svg/>"),
      ("animation_url", .str "http://x/a.png")])
    ⟨7, [⟨some "image", "data:image/svg+xml;base64,PHN2Zy8+", .SVG⟩,
        ⟨some "image_data", "data:image/svg+xml;base64,PHN2Zy8+", .SVG⟩,
        ⟨some "animation_url", "http://x/a.png", .PNG⟩],
      some (.obj [("image", .str "<svg/>"), ("image_data", .str "<svg/>"),
        ("animation_url", .str "http://x/a... (14 bytes total)")])⟩
    rfl rfl rfl ⟨.str "<svg/>", rfl, rfl⟩ ⟨.str "<svg/>", rfl, rfl⟩
    ⟨.str "http://x/a.png", rfl, rfl⟩ rfl).1

end NftParser
